import Mathlib

/-!
Shallow embedding of the claude-tasker task-queue core (task-manager.py,
claude-sdk-executor.py, web-server.py) and proofs about its specification.

Modelling conventions:
* Timestamps: the source stores `created_at` (and the other stamps) as
  ISO-8601 strings taken from `datetime.now()`, and the task id embeds
  `int(time.time() * 1000)`, the current millisecond count.  Both clocks
  advance together and ISO strings from the same clock compare
  lexicographically exactly as chronologically, so timestamps are modelled
  as a single `Nat` clock value passed explicitly to each operation that
  reads the clock.
* Statuses are plain strings in the source (`'pending'`, `'in_progress'`,
  `'completed'`, `'failed'`, but `update_task_status` accepts any string),
  so they are modelled as `String`.
* The JSONL queue file is modelled at two levels: a parsed level
  `List Task` used by most operations, and a raw level `List (Option Task)`
  (one entry per non-blank line, `none` for a line `json.loads` rejects)
  used to model the parse-failure behaviour of the readers.
* Python's stable `list.sort` is modelled by `List.mergeSort`, which is
  also a stable sort.
-/

namespace ClaudeTasker

/-- Result dictionary returned by `ClaudeSDKExecutor.execute_task_autonomously`. -/
structure ExecResult where
  success : Bool
  response : Option String := none
  actions_executed : Option Nat := none
  error : Option String := none
  deriving DecidableEq

/-- One task record, as built by `add_task` and mutated by `update_task_status`.
The field names follow the JSON keys of the source (`task` is the required
free-text instruction, `description` the optional extended detail). -/
structure Task where
  id : String
  task : String
  priority : Int
  tags : List String
  description : String
  status : String
  created_at : Nat
  attempts : Nat
  started_at : Option Nat := none
  completed_at : Option Nat := none
  failed_at : Option Nat := none
  error : Option String := none
  execution_result : Option ExecResult := none
  actions_executed : Option Nat := none
  deriving DecidableEq

/-- Durable state: the queue file (`task-queue.jsonl`) and the archive of
completed tasks (`completed-tasks.jsonl`). -/
structure StoreState where
  queue : List Task
  completed : List Task
  deriving DecidableEq

def emptyStore : StoreState := { queue := [], completed := [] }

/-- Little-endian base-10 digits with an explicit fuel bound (structural
recursion, so that concrete ids evaluate by `decide`); equal to
`Nat.digits 10 n` whenever `n ≤ fuel`. -/
def digitsRev (fuel n : Nat) : List Nat :=
  match fuel, n with
  | 0, _ => []
  | _ + 1, 0 => []
  | fuel + 1, n + 1 => ((n + 1) % 10) :: digitsRev fuel ((n + 1) / 10)

/-- Decimal string of a `Nat`, modelling Python's `str(int)` rendering used
inside the id f-string for `int(time.time() * 1000)`. -/
def natStr (n : Nat) : String :=
  if n = 0 then "0" else ((digitsRev n n).reverse.map Nat.digitChar).asString

/-- Task id assigned at creation: `f"task_{int(time.time() * 1000)}"`. -/
def mkId (nowMs : Nat) : String := "task_" ++ natStr nowMs

/-- Embeds `ClaudeTaskManager.add_task` (task-manager.py lines 74-96): clamps
the priority with `max(1, min(5, priority))`, builds a `pending` record with
`attempts = 0` and a creation-time-derived id, and appends it to the queue
file.  The source performs no validation whatsoever; in particular an empty
`task` string is accepted.  Returns the new queue and the id. -/
def add_task (queue : List Task) (task : String) (priority : Int)
    (tags : List String) (description : String) (nowMs : Nat) :
    List Task × String :=
  let t : Task := {
    id := mkId nowMs
    task := task
    priority := max 1 (min 5 priority)
    tags := tags
    description := description
    status := "pending"
    created_at := nowMs
    attempts := 0 }
  (queue ++ [t], t.id)

/-- Sort order used by `get_next_task`: Python's ascending sort on the key
`(-priority, created_at)`. -/
def nextTaskLe (a b : Task) : Bool :=
  decide (b.priority < a.priority ∨
    (a.priority = b.priority ∧ a.created_at ≤ b.created_at))

/-- Embeds `ClaudeTaskManager.get_next_task` (task-manager.py lines 98-116):
filters the parsed queue to `pending` records, sorts by
`(-priority, created_at)` and returns the first record, or `none` when no
pending record exists. -/
def get_next_task (queue : List Task) : Option Task :=
  let tasks := queue.filter (fun t => t.status == "pending")
  (tasks.mergeSort nextTaskLe).head?

/-- Status filter of `get_all_tasks`: `status is None or task['status'] == status`. -/
def statusKeep (status : Option String) (t : Task) : Bool :=
  match status with
  | none => true
  | some s => t.status == s

/-- Sort order used by `get_all_tasks`: `created_at` descending (Python's
`sort(key=..., reverse=True)`, which is also stable). -/
def newestLe (a b : Task) : Bool := decide (b.created_at ≤ a.created_at)

/-- Embeds `ClaudeTaskManager.get_all_tasks` (task-manager.py lines 118-136):
filters by exact status, sorts by `created_at` descending (newest first,
`reverse=True`), and truncates with `tasks[:limit]` guarded by Python's
truthiness test `if limit:`, under which a limit of `0` (like `None`)
performs no truncation. -/
def get_all_tasks (queue : List Task) (status : Option String)
    (limit : Option Nat) : List Task :=
  let tasks := queue.filter (statusKeep status)
  let sorted := tasks.mergeSort newestLe
  match limit with
  | none => sorted
  | some n => if n = 0 then sorted else sorted.take n

/-- Keyword arguments passed to `update_task_status` by its call sites
(the autonomous loop and the web server; the web server passes none). -/
structure UpdateFields where
  started_at : Option Nat := none
  completed_at : Option Nat := none
  failed_at : Option Nat := none
  error : Option String := none
  execution_result : Option ExecResult := none
  actions_executed : Option Nat := none
  deriving DecidableEq

/-- Dictionary merge `task.update(kwargs)` for one optional field: a supplied
keyword overwrites, an absent one leaves the record's value. -/
def mergeOpt {α : Type} (new old : Option α) : Option α :=
  match new with
  | some v => some v
  | none => old

/-- Mutation applied to a matching record inside `update_task_status`:
`task['status'] = status`, then `task.update(kwargs)`, then — only when the
new status is `completed` — the stamp `task['completed_at'] = now`.  No other
timestamp is stamped by the store itself, and `attempts` is never touched. -/
def applyUpdate (t : Task) (status : String) (kw : UpdateFields) (now : Nat) :
    Task :=
  let t2 : Task := { t with
    status := status
    started_at := mergeOpt kw.started_at t.started_at
    completed_at := mergeOpt kw.completed_at t.completed_at
    failed_at := mergeOpt kw.failed_at t.failed_at
    error := mergeOpt kw.error t.error
    execution_result := mergeOpt kw.execution_result t.execution_result
    actions_executed := mergeOpt kw.actions_executed t.actions_executed }
  if status = "completed" then { t2 with completed_at := some now } else t2

/-- Embeds `ClaudeTaskManager.update_task_status` (task-manager.py lines
138-166).  The source walks the queue front to back, rewriting every record
whose id matches and remembering the last rewritten record in
`updated_task`; it then rewrites the queue file, and appends `updated_task`
to the completed-tasks archive exactly when the new status is `completed`
and a record matched. -/
def update_task_status (st : StoreState) (task_id : String) (status : String)
    (kw : UpdateFields) (now : Nat) : StoreState × Option Task :=
  let queue := st.queue.map
    (fun t => if t.id = task_id then applyUpdate t status kw now else t)
  let updated := ((st.queue.filter (fun t => t.id == task_id)).getLast?).map
    (fun t => applyUpdate t status kw now)
  let archive :=
    if status = "completed" then
      match updated with
      | some u => st.completed ++ [u]
      | none => st.completed
    else st.completed
  ({ queue := queue, completed := archive }, updated)

/-- Embeds `ClaudeTaskManager.delete_task` (task-manager.py lines 168-191):
keeps every record whose id differs, rewrites the queue, and reports whether
some record matched. -/
def delete_task (st : StoreState) (task_id : String) : StoreState × Bool :=
  ({ st with queue := st.queue.filter (fun t => !(t.id == task_id)) },
    st.queue.any (fun t => t.id == task_id))

/-- Outcome of the inner Claude SDK interaction (`messages.create`, response
parsing, action execution) inside `execute_task_autonomously`.  The LLM call
and the parsing of its free-text response are opaque collaborators; what the
queue core observes is either a parsed response with some number of executed
actions, or a raised exception message. -/
inductive SDKCall where
  | completes (response : String) (actions : Nat)
  | raises (msg : String)
  deriving DecidableEq

/-- Embeds `ClaudeSDKExecutor.execute_task_autonomously`
(claude-sdk-executor.py lines 48-98): on success it returns
`{'success': True, 'response': ..., 'actions_executed': len(actions), ...}`;
every raised exception is caught and turned into
`{'success': False, 'error': str(e), ...}`. -/
def execute_task_autonomously (call : SDKCall) : ExecResult :=
  match call with
  | .completes r n => { success := true, response := some r, actions_executed := some n }
  | .raises e => { success := false, error := some e }

/-- Outcome of awaiting the executor from the autonomous loop: the awaited
coroutine either returns a result dictionary or raises. -/
inductive AwaitOutcome where
  | value (r : ExecResult)
  | raised (msg : String)
  deriving DecidableEq

/-- Embeds one dispatch of `_async_autonomous_loop` (task-manager.py lines
232-273) for a task the loop has found: unconditionally transition to
`in_progress` stamping `started_at` via a keyword argument, await the
executor, then mark `completed` (with `completed_at`, `execution_result`,
`actions_executed`) or `failed` (with `error`, `failed_at`).  The loop body
performs no re-check of the task's current status and never touches
`attempts`. -/
def loop_body (st : StoreState) (task : Task) (out : AwaitOutcome)
    (tStart tEnd : Nat) : StoreState :=
  let st1 := (update_task_status st task.id "in_progress"
    { started_at := some tStart } tStart).1
  match out with
  | .value r =>
    if r.success then
      (update_task_status st1 task.id "completed"
        { completed_at := some tEnd
          execution_result := some r
          actions_executed := some (r.actions_executed.getD 0) } tEnd).1
    else
      (update_task_status st1 task.id "failed"
        { error := some (r.error.getD "Unknown error")
          failed_at := some tEnd } tEnd).1
  | .raised e =>
      (update_task_status st1 task.id "failed"
        { error := some ("SDK execution error: " ++ e)
          failed_at := some tEnd } tEnd).1

/-- Embeds `api_update_task_status` of web-server.py (lines 115-133): the
dashboard's status endpoint calls `update_task_status(task_id, status)` with
no keyword arguments at all, for whatever status string the request body
carries. -/
def api_update_task_status (st : StoreState) (task_id : String)
    (status : String) (now : Nat) : StoreState × Option Task :=
  update_task_status st task_id status {} now

/-- Raw queue file: one entry per non-blank line, `none` when `json.loads`
raises on that line. -/
def RawStore : Type := List (Option Task)

/-- Line-by-line replay of the queue file.  The source calls
`json.loads(line)` with no exception handling inside the read loops, so the
first malformed line raises out of the whole read and every record is lost. -/
def readTasks : List (Option Task) → Except String (List Task)
  | [] => .ok []
  | none :: _ => .error "json decode error"
  | some t :: rest =>
    match readTasks rest with
    | .ok ts => .ok (t :: ts)
    | .error e => .error e

/-- File-level `get_all_tasks`: parse every line, then filter, sort and
truncate.  A parse failure aborts the whole read. -/
def get_all_tasks_file (raw : List (Option Task)) (status : Option String)
    (limit : Option Nat) : Except String (List Task) :=
  match readTasks raw with
  | .ok ts => .ok (get_all_tasks ts status limit)
  | .error e => .error e

/-- File-level `get_next_task`: parse every line, then select.  A parse
failure aborts the whole read. -/
def get_next_task_file (raw : List (Option Task)) :
    Except String (Option Task) :=
  match readTasks raw with
  | .ok ts => .ok (get_next_task ts)
  | .error e => .error e

/-- Store operations reachable through the CLI and the web dashboard. -/
inductive Op where
  | add (task : String) (priority : Int) (tags : List String)
      (description : String) (nowMs : Nat)
  | update (task_id : String) (status : String) (kw : UpdateFields) (now : Nat)
  | del (task_id : String)
  deriving DecidableEq

def applyOp (st : StoreState) : Op → StoreState
  | .add task p tags d now => { st with queue := (add_task st.queue task p tags d now).1 }
  | .update id s kw now => (update_task_status st id s kw now).1
  | .del id => (delete_task st id).1

/-- Final store after a sequence of operations starting from the empty store. -/
def runOps (ops : List Op) : StoreState := ops.foldl applyOp emptyStore

/-- Every store state along a sequence of operations (the trace), starting
from the empty store. -/
def traceOps (ops : List Op) : List StoreState :=
  List.scanl applyOp emptyStore ops

/-- A task with the given id holds the given status somewhere in a state. -/
def holdsStatus (st : StoreState) (task_id status : String) : Prop :=
  ∃ t ∈ st.queue, t.id = task_id ∧ t.status = status

instance (st : StoreState) (task_id status : String) :
    Decidable (holdsStatus st task_id status) := by
  unfold holdsStatus; infer_instance

/-- Concrete task used to instantiate theorems on small inputs. -/
def mkSample (status : String) (pr : Int) (created : Nat) : Task :=
  { id := mkId created
    task := "T"
    priority := pr
    tags := []
    description := ""
    status := status
    created_at := created
    attempts := 0 }

/-- The record produced by `add_task [] "backup" 3 [] "" 50`. -/
def backupTask : Task :=
  { id := mkId 50
    task := "backup"
    priority := 3
    tags := []
    description := ""
    status := "pending"
    created_at := 50
    attempts := 0 }

/-- Store holding exactly the freshly added backup task. -/
def backupStore : StoreState :=
  { queue := (add_task [] "backup" 3 [] "" 50).1, completed := [] }

/-- Store holding one pending sample task, with an empty archive. -/
def sampleStore : StoreState :=
  { queue := [mkSample "pending" 3 11], completed := [] }

end ClaudeTasker

namespace ClaudeTasker

/-! Helper lemmas about the two sort orders. -/

theorem nextTaskLe_trans (a b c : Task) (h1 : nextTaskLe a b) (h2 : nextTaskLe b c) :
    nextTaskLe a c := by
  simp only [nextTaskLe, decide_eq_true_eq] at h1 h2 ⊢
  omega

theorem nextTaskLe_total (a b : Task) : nextTaskLe a b || nextTaskLe b a := by
  simp only [nextTaskLe, Bool.or_eq_true, decide_eq_true_eq]
  omega

theorem newestLe_trans (a b c : Task) (h1 : newestLe a b) (h2 : newestLe b c) :
    newestLe a c := by
  simp only [newestLe, decide_eq_true_eq] at h1 h2 ⊢
  omega

theorem newestLe_total (a b : Task) : newestLe a b || newestLe b a := by
  simp only [newestLe, Bool.or_eq_true, decide_eq_true_eq]
  omega

/-- The head of a merge-sorted list is a member of the original list and a
lower bound of every member, for a transitive total comparator. -/
theorem head_mergeSort_mem_le {α : Type} {le : α → α → Bool}
    (htrans : ∀ a b c : α, le a b → le b c → le a c)
    (htotal : ∀ a b : α, le a b || le b a)
    (l : List α) (t : α) (h : (l.mergeSort le).head? = some t) :
    t ∈ l ∧ ∀ u ∈ l, le t u := by
  have hperm := List.mergeSort_perm l le
  have hsorted := @List.sorted_mergeSort α le htrans htotal l
  cases hms : l.mergeSort le with
  | nil => rw [hms] at h; simp at h
  | cons x xs =>
    rw [hms] at h hperm hsorted
    simp only [List.head?_cons, Option.some.injEq] at h
    subst h
    refine ⟨hperm.subset (List.mem_cons_self x xs), ?_⟩
    intro u hu
    have hu2 : u ∈ x :: xs := hperm.symm.subset hu
    rcases List.mem_cons.mp hu2 with rfl | hin
    · have := htotal u u
      simpa using this
    · exact (List.pairwise_cons.mp hsorted).1 u hin

theorem head_mergeSort_none {α : Type} {le : α → α → Bool} (l : List α) :
    ((l.mergeSort le).head? = none) ↔ l = [] := by
  rw [List.head?_eq_none_iff]
  constructor
  · intro h
    have hperm := List.mergeSort_perm l le
    rw [h] at hperm
    exact (hperm.symm).eq_nil
  · intro h
    subst h
    simp

/-! Helper lemmas about the decimal rendering used in task ids. -/

theorem digitsRev_eq_digits : ∀ (fuel n : Nat), n ≤ fuel →
    digitsRev fuel n = Nat.digits 10 n := by
  intro fuel
  induction fuel with
  | zero =>
    intro n hn
    interval_cases n
    simp [digitsRev]
  | succ fuel ih =>
    intro n hn
    match n with
    | 0 => simp [digitsRev]
    | n + 1 =>
      rw [digitsRev, Nat.digits_def' (by norm_num : (1:Nat) < 10) (Nat.succ_pos n)]
      congr 1
      refine ih _ ?_
      have := Nat.div_lt_self (Nat.succ_pos n) (by norm_num : 1 < 10)
      omega

theorem digitChar_injOn (a b : Nat) (ha : a < 10) (hb : b < 10)
    (h : Nat.digitChar a = Nat.digitChar b) : a = b := by
  have key : ∀ x y : Fin 10, Nat.digitChar x.val = Nat.digitChar y.val → x = y := by
    decide
  exact congrArg Fin.val (key ⟨a, ha⟩ ⟨b, hb⟩ h)

theorem map_digitChar_inj : ∀ (l1 l2 : List Nat),
    (∀ x ∈ l1, x < 10) → (∀ x ∈ l2, x < 10) →
    l1.map Nat.digitChar = l2.map Nat.digitChar → l1 = l2 := by
  intro l1
  induction l1 with
  | nil =>
    intro l2 _ _ h
    cases l2 <;> simp_all
  | cons a l1 ih =>
    intro l2 h1 h2 h
    cases l2 with
    | nil => simp at h
    | cons b l2 =>
      simp only [List.map_cons, List.cons.injEq] at h
      have hab : a = b :=
        digitChar_injOn a b (h1 a (by simp)) (h2 b (by simp)) h.1
      subst hab
      have := ih l2 (fun x hx => h1 x (by simp [hx])) (fun x hx => h2 x (by simp [hx])) h.2
      simp [this]

theorem natStr_data_inj (n m : Nat) (h : (natStr n).data = (natStr m).data) :
    n = m := by
  unfold natStr at h
  by_cases hn : n = 0 <;> by_cases hm : m = 0
  · omega
  · exfalso
    simp only [hn, if_true, hm, if_false] at h
    rw [digitsRev_eq_digits m m le_rfl] at h
    simp only [List.asString] at h
    have hlen := congrArg List.length h
    simp only [List.length_map, List.length_reverse] at hlen
    obtain ⟨d, hd⟩ : ∃ d, Nat.digits 10 m = [d] := by
      cases hdig : Nat.digits 10 m with
      | nil => rw [hdig] at hlen; simp at hlen
      | cons x xs =>
        rw [hdig] at hlen
        simp at hlen
        exact ⟨x, by simp [hdig, hlen]⟩
    rw [hd] at h
    simp at h
    have hd10 : d < 10 :=
      Nat.digits_lt_base (by norm_num) (by rw [hd]; exact List.mem_singleton_self d)
    have : (0 : Nat) = d := digitChar_injOn 0 d (by norm_num) hd10 h
    have hm0 : m = Nat.ofDigits 10 (Nat.digits 10 m) := (Nat.ofDigits_digits 10 m).symm
    rw [hd, ← this] at hm0
    simp [Nat.ofDigits] at hm0
    exact hm hm0
  · exfalso
    simp only [hn, if_false, hm, if_true] at h
    rw [digitsRev_eq_digits n n le_rfl] at h
    simp only [List.asString] at h
    have hlen := congrArg List.length h
    simp only [List.length_map, List.length_reverse] at hlen
    obtain ⟨d, hd⟩ : ∃ d, Nat.digits 10 n = [d] := by
      cases hdig : Nat.digits 10 n with
      | nil => rw [hdig] at hlen; simp at hlen
      | cons x xs =>
        rw [hdig] at hlen
        simp at hlen
        exact ⟨x, by simp [hdig, hlen]⟩
    rw [hd] at h
    simp at h
    have hd10 : d < 10 :=
      Nat.digits_lt_base (by norm_num) (by rw [hd]; exact List.mem_singleton_self d)
    have : d = 0 := digitChar_injOn d 0 hd10 (by norm_num) h
    have hn0 : n = Nat.ofDigits 10 (Nat.digits 10 n) := (Nat.ofDigits_digits 10 n).symm
    rw [hd, this] at hn0
    simp [Nat.ofDigits] at hn0
    exact hn hn0
  · simp only [hn, if_false, hm, if_false] at h
    rw [digitsRev_eq_digits n n le_rfl, digitsRev_eq_digits m m le_rfl] at h
    simp only [List.asString] at h
    have hrev : (Nat.digits 10 n).reverse = (Nat.digits 10 m).reverse :=
      map_digitChar_inj _ _
        (fun x hx => Nat.digits_lt_base (by norm_num) (List.mem_reverse.mp hx))
        (fun x hx => Nat.digits_lt_base (by norm_num) (List.mem_reverse.mp hx)) h
    have hdig : Nat.digits 10 n = Nat.digits 10 m :=
      List.reverse_injective hrev
    calc n = Nat.ofDigits 10 (Nat.digits 10 n) := (Nat.ofDigits_digits 10 n).symm
    _ = Nat.ofDigits 10 (Nat.digits 10 m) := by rw [hdig]
    _ = m := Nat.ofDigits_digits 10 m

theorem mkId_inj (n m : Nat) (h : mkId n = mkId m) : n = m := by
  unfold mkId at h
  have hdata := congrArg String.data h
  rw [String.data_append, String.data_append] at hdata
  exact natStr_data_inj n m (List.append_cancel_left hdata)

/-! Field-level facts about `applyUpdate`. -/

theorem applyUpdate_id (t : Task) (s : String) (kw : UpdateFields) (now : Nat) :
    (applyUpdate t s kw now).id = t.id := by
  by_cases h : s = "completed" <;> simp [applyUpdate, h]

theorem applyUpdate_status (t : Task) (s : String) (kw : UpdateFields) (now : Nat) :
    (applyUpdate t s kw now).status = s := by
  by_cases h : s = "completed" <;> simp [applyUpdate, h]

theorem applyUpdate_attempts (t : Task) (s : String) (kw : UpdateFields) (now : Nat) :
    (applyUpdate t s kw now).attempts = t.attempts := by
  by_cases h : s = "completed" <;> simp [applyUpdate, h]

theorem applyUpdate_created_at (t : Task) (s : String) (kw : UpdateFields) (now : Nat) :
    (applyUpdate t s kw now).created_at = t.created_at := by
  by_cases h : s = "completed" <;> simp [applyUpdate, h]

theorem applyUpdate_started_at (t : Task) (s : String) (kw : UpdateFields) (now : Nat) :
    (applyUpdate t s kw now).started_at = mergeOpt kw.started_at t.started_at := by
  by_cases h : s = "completed" <;> simp [applyUpdate, h]

theorem applyUpdate_failed_at (t : Task) (s : String) (kw : UpdateFields) (now : Nat) :
    (applyUpdate t s kw now).failed_at = mergeOpt kw.failed_at t.failed_at := by
  by_cases h : s = "completed" <;> simp [applyUpdate, h]

theorem applyUpdate_error (t : Task) (s : String) (kw : UpdateFields) (now : Nat) :
    (applyUpdate t s kw now).error = mergeOpt kw.error t.error := by
  by_cases h : s = "completed" <;> simp [applyUpdate, h]

theorem applyUpdate_completed_at_of (t : Task) (s : String) (kw : UpdateFields)
    (now : Nat) (h : s = "completed") :
    (applyUpdate t s kw now).completed_at = some now := by
  simp [applyUpdate, h]

theorem applyUpdate_completed_at_of_ne (t : Task) (s : String) (kw : UpdateFields)
    (now : Nat) (h : s ≠ "completed") :
    (applyUpdate t s kw now).completed_at = mergeOpt kw.completed_at t.completed_at := by
  simp [applyUpdate, h]

/-- C1: for every store state, `get_next_task` returns a pending task of the
store that has maximal priority among pending tasks, with ties broken towards
the earliest `created_at`; it returns `none` exactly when no pending task
exists.  It is a pure function of the store (it takes the parsed queue and
returns only a task option). -/
theorem C1_get_next_task_spec (queue : List Task) :
    (∀ t, get_next_task queue = some t →
      t ∈ queue ∧ t.status = "pending" ∧
      ∀ u ∈ queue, u.status = "pending" →
        u.priority ≤ t.priority ∧
        (u.priority = t.priority → t.created_at ≤ u.created_at)) ∧
    (get_next_task queue = none ↔ ∀ u ∈ queue, u.status ≠ "pending") := by
  constructor
  · intro t ht
    simp only [get_next_task] at ht
    obtain ⟨hmem, hle⟩ :=
      head_mergeSort_mem_le nextTaskLe_trans nextTaskLe_total _ t ht
    have hmem2 := List.mem_filter.mp hmem
    refine ⟨hmem2.1, by simpa using hmem2.2, ?_⟩
    intro u hu hup
    have hufilter : u ∈ queue.filter (fun t => t.status == "pending") :=
      List.mem_filter.mpr ⟨hu, by simp [hup]⟩
    have hcmp := hle u hufilter
    simp only [nextTaskLe, decide_eq_true_eq] at hcmp
    constructor
    · rcases hcmp with h | ⟨h, _⟩ <;> omega
    · intro hpe
      rcases hcmp with h | ⟨_, h2⟩
      · omega
      · exact h2
  · simp only [get_next_task]
    rw [head_mergeSort_none, List.filter_eq_nil_iff]
    simp

/-- Witness for C1, scenario 2 of the spec: with two pending tasks of equal
priority, the one created first is selected and the comparison facts hold. -/
theorem C1_get_next_task_spec_witness :
    (mkSample "pending" 3 100) ∈ [mkSample "pending" 3 100, mkSample "pending" 3 200] ∧
    (mkSample "pending" 3 100).status = "pending" ∧
    ((mkSample "pending" 3 200).priority ≤ (mkSample "pending" 3 100).priority ∧
      ((mkSample "pending" 3 200).priority = (mkSample "pending" 3 100).priority →
        (mkSample "pending" 3 100).created_at ≤ (mkSample "pending" 3 200).created_at)) := by
  have h := (C1_get_next_task_spec
      [mkSample "pending" 3 100, mkSample "pending" 3 200]).1
    (mkSample "pending" 3 100)
    (by simp [get_next_task, List.mergeSort, nextTaskLe, mkSample])
  exact ⟨h.1, h.2.1, h.2.2 (mkSample "pending" 3 200) (by simp) (by rfl)⟩

/-- Useful unfolding: the queue after `update_task_status` is a pointwise
conditional rewrite of the previous queue. -/
theorem update_task_status_queue (st : StoreState) (task_id s : String)
    (kw : UpdateFields) (now : Nat) :
    (update_task_status st task_id s kw now).1.queue =
      st.queue.map (fun t => if t.id = task_id then applyUpdate t s kw now else t) :=
  rfl

/-- C2 counterexample: running a freshly added task whose Executor call
raises "disk full" ends with `status=failed` and the error recorded, but
`attempts` is 0, not 1: no code path ever increments `attempts`. -/
theorem C2_attempts_stay_zero_on_failed_run :
    (add_task [] "backup" 3 [] "" 50).1 = [backupTask] ∧
    (∃ u ∈ (loop_body backupStore backupTask
        (.value (execute_task_autonomously (.raises "disk full"))) 60 70).queue,
      u.status = "failed" ∧ u.error = some "disk full" ∧
      u.failed_at = some 70 ∧ u.attempts = 0) ∧
    ¬ (∃ u ∈ (loop_body backupStore backupTask
        (.value (execute_task_autonomously (.raises "disk full"))) 60 70).queue,
      u.attempts = 1) := by
  decide

/-- C2 (amended): running a task whose Executor call raises an error with
message E leaves every record with that id with `status=failed`,
`lastError=E` and `failedAt` stamped, after first transitioning it to
`in_progress` with `startedAt` stamped; but `attempts` is left untouched on
every record (the source never increments it), so a task added with
`attempts=0` still has `attempts=0` after the failed run. -/
theorem C2_failed_run_fields (st : StoreState) (task : Task) (e : String)
    (t1 t2 : Nat) (hmem : ∃ u ∈ st.queue, u.id = task.id) :
    (∃ u ∈ (loop_body st task
        (.value (execute_task_autonomously (.raises e))) t1 t2).queue,
      u.id = task.id) ∧
    (∀ u ∈ (loop_body st task
        (.value (execute_task_autonomously (.raises e))) t1 t2).queue,
      u.id = task.id →
        u.status = "failed" ∧ u.error = some e ∧
        u.failed_at = some t2 ∧ u.started_at = some t1) ∧
    (loop_body st task
        (.value (execute_task_autonomously (.raises e))) t1 t2).queue.map
      Task.attempts = st.queue.map Task.attempts := by
  have hq : (loop_body st task
      (.value (execute_task_autonomously (.raises e))) t1 t2).queue =
      st.queue.map (fun t0 =>
        if t0.id = task.id then
          applyUpdate
            (applyUpdate t0 "in_progress" { started_at := some t1 } t1)
            "failed" { error := some e, failed_at := some t2 } t2
        else t0) := by
    simp only [loop_body, execute_task_autonomously]
    rw [if_neg (by decide : ¬ (false = true))]
    simp only [Option.getD_some, update_task_status_queue, List.map_map]
    refine List.map_congr_left ?_
    intro t0 _
    by_cases h : t0.id = task.id
    · simp [h, Function.comp, applyUpdate_id]
    · simp [h, Function.comp]
  refine ⟨?_, ?_, ?_⟩
  · obtain ⟨u0, hu0, hid⟩ := hmem
    rw [hq]
    refine ⟨_, List.mem_map_of_mem _ hu0, ?_⟩
    simp [hid, applyUpdate_id]
  · intro u hu hid
    rw [hq] at hu
    obtain ⟨t0, _, rfl⟩ := List.mem_map.mp hu
    by_cases h : t0.id = task.id
    · simp only [h, if_true]
      refine ⟨applyUpdate_status _ _ _ _, ?_, ?_, ?_⟩
      · rw [applyUpdate_error]
        rfl
      · rw [applyUpdate_failed_at]
        rfl
      · rw [applyUpdate_started_at, applyUpdate_started_at]
        rfl
    · simp [h] at hid
  · rw [hq, List.map_map]
    refine List.map_congr_left ?_
    intro t0 _
    by_cases h : t0.id = task.id <;>
      simp [h, Function.comp, applyUpdate_attempts]

/-- Witness for the amended C2 at a concrete store. -/
theorem C2_failed_run_fields_witness :
    (∃ u ∈ (loop_body backupStore backupTask
        (.value (execute_task_autonomously (.raises "disk full"))) 60 70).queue,
      u.id = backupTask.id) ∧
    (∀ u ∈ (loop_body backupStore backupTask
        (.value (execute_task_autonomously (.raises "disk full"))) 60 70).queue,
      u.id = backupTask.id →
        u.status = "failed" ∧ u.error = some "disk full" ∧
        u.failed_at = some 70 ∧ u.started_at = some 60) ∧
    (loop_body backupStore backupTask
        (.value (execute_task_autonomously (.raises "disk full"))) 60 70).queue.map
      Task.attempts = backupStore.queue.map Task.attempts :=
  C2_failed_run_fields backupStore backupTask "disk full" 60 70 (by decide)

/-- C3 counterexample: the loop body performs no pending-status re-check.
Handing it a task that is already `failed` does not abort: the store changes,
`started_at` is stamped and the status is overwritten. -/
theorem C3_no_pending_guard :
    (loop_body { queue := [mkSample "failed" 3 7], completed := [] }
        (mkSample "failed" 3 7)
        (.value (execute_task_autonomously (.completes "ok" 2))) 8 9).queue ≠
      [mkSample "failed" 3 7] ∧
    ∃ u ∈ (loop_body { queue := [mkSample "failed" 3 7], completed := [] }
        (mkSample "failed" 3 7)
        (.value (execute_task_autonomously (.completes "ok" 2))) 8 9).queue,
      u.id = (mkSample "failed" 3 7).id ∧ u.status = "completed" ∧
      u.started_at = some 8 := by
  decide

/-- C3 (amended): the coordinator itself performs no status check; it
proceeds on whatever task it is handed.  Double dispatch of finished tasks is
prevented only in that the loop obtains its task from `get_next_task`, which
returns exclusively `pending` tasks. -/
theorem C3_selected_task_is_pending (queue : List Task) (t : Task)
    (h : get_next_task queue = some t) : t.status = "pending" := by
  obtain ⟨hmem, _⟩ :=
    head_mergeSort_mem_le nextTaskLe_trans nextTaskLe_total _ t
      (by simpa [get_next_task] using h)
  simpa using (List.mem_filter.mp hmem).2

/-- Witness for the amended C3 at a concrete store. -/
theorem C3_selected_task_is_pending_witness :
    (mkSample "pending" 2 10).status = "pending" :=
  C3_selected_task_is_pending [mkSample "completed" 5 1, mkSample "pending" 2 10]
    (mkSample "pending" 2 10)
    (by simp [get_next_task, List.mergeSort, nextTaskLe, mkSample])

/-- C4 counterexample: adding a task with an empty description does not fail:
no validation exists, and a pending record with the empty description is
appended to the store. -/
theorem C4_empty_description_accepted :
    (add_task [] "" 3 [] "" 7).1.length = 1 ∧
    ∃ t ∈ (add_task [] "" 3 [] "" 7).1, t.task = "" ∧ t.status = "pending" := by
  decide

/-- C4 (amended): `add_task` performs no validation at all: for every input,
including an empty description, it appends exactly one pending record and
returns its id; there is no failure path and no `ValidationError` anywhere in
the source. -/
theorem C4_add_never_fails (queue : List Task) (task : String) (p : Int)
    (tags : List String) (d : String) (now : Nat) :
    ∃ t : Task, add_task queue task p tags d now = (queue ++ [t], t.id) ∧
      t.task = task ∧ t.status = "pending" :=
  ⟨_, rfl, rfl, rfl⟩

/-- Helper shared by several claims: after `update_task_status`, every queue
record carrying the updated id holds the new status, whatever its previous
status was. -/
theorem update_status_sets_status (st : StoreState) (task_id s : String)
    (kw : UpdateFields) (now : Nat) :
    ∀ u ∈ (update_task_status st task_id s kw now).1.queue,
      u.id = task_id → u.status = s := by
  intro u hu hid
  rw [update_task_status_queue] at hu
  obtain ⟨t0, _, rfl⟩ := List.mem_map.mp hu
  by_cases h : t0.id = task_id
  · simp only [h, if_true]
    exact applyUpdate_status _ _ _ _
  · simp [h] at hid

/-- C5 counterexample: transitioning a task to `in_progress` through the
store operation (exactly what the web dashboard's status endpoint does,
passing no extra fields) does not stamp `started_at`: the record ends
`in_progress` with `started_at` still absent. -/
theorem C5_in_progress_does_not_stamp_started_at :
    ∃ u ∈ (api_update_task_status sampleStore
        (mkSample "pending" 3 11).id "in_progress" 12).1.queue,
      u.id = (mkSample "pending" 3 11).id ∧ u.status = "in_progress" ∧
      u.started_at = none := by
  decide

/-- C5 (amended): `update_task_status` overwrites the status of every record
with the given id and merges the supplied fields, but the only timestamp the
operation itself stamps is `completed_at`, exactly when the new status is
`completed`; `started_at` and `failed_at` change only when supplied by the
caller.  The record is duplicated into the archive exactly when the
transition is to `completed` and the id is present. -/
theorem C5_update_status_stamps (st : StoreState) (task_id s : String)
    (kw : UpdateFields) (now : Nat) :
    (∀ u ∈ (update_task_status st task_id s kw now).1.queue,
        u.id = task_id → u.status = s) ∧
    (s = "completed" →
      ∀ u ∈ (update_task_status st task_id s kw now).1.queue,
        u.id = task_id → u.completed_at = some now) ∧
    (kw.started_at = none →
      (update_task_status st task_id s kw now).1.queue.map Task.started_at =
        st.queue.map Task.started_at) ∧
    (kw.failed_at = none →
      (update_task_status st task_id s kw now).1.queue.map Task.failed_at =
        st.queue.map Task.failed_at) ∧
    (s ≠ "completed" →
      (update_task_status st task_id s kw now).1.completed = st.completed) ∧
    (s = "completed" → (∃ u ∈ st.queue, u.id = task_id) →
      ∃ w, (update_task_status st task_id s kw now).1.completed =
          st.completed ++ [w] ∧
        w.id = task_id ∧ w.status = "completed" ∧ w.completed_at = some now) ∧
    (s = "completed" → (∀ u ∈ st.queue, u.id ≠ task_id) →
      (update_task_status st task_id s kw now).1.completed = st.completed) := by
  refine ⟨update_status_sets_status st task_id s kw now, ?_, ?_, ?_, ?_, ?_, ?_⟩
  · intro hs u hu hid
    rw [update_task_status_queue] at hu
    obtain ⟨t0, _, rfl⟩ := List.mem_map.mp hu
    by_cases h : t0.id = task_id
    · simp only [h, if_true]
      exact applyUpdate_completed_at_of _ _ _ _ hs
    · simp [h] at hid
  · intro hnone
    rw [update_task_status_queue, List.map_map]
    refine List.map_congr_left ?_
    intro t0 _
    by_cases h : t0.id = task_id <;>
      simp [h, Function.comp, applyUpdate_started_at, hnone, mergeOpt]
  · intro hnone
    rw [update_task_status_queue, List.map_map]
    refine List.map_congr_left ?_
    intro t0 _
    by_cases h : t0.id = task_id <;>
      simp [h, Function.comp, applyUpdate_failed_at, hnone, mergeOpt]
  · intro hs
    simp [update_task_status, hs]
  · intro hs hex
    obtain ⟨u0, hu0, hid⟩ := hex
    have hfil : u0 ∈ st.queue.filter (fun t => t.id == task_id) :=
      List.mem_filter.mpr ⟨hu0, by simp [hid]⟩
    obtain ⟨w0, hw0⟩ : ∃ w0,
        (st.queue.filter (fun t => t.id == task_id)).getLast? = some w0 := by
      cases hgl : (st.queue.filter (fun t => t.id == task_id)).getLast? with
      | none =>
        rw [List.getLast?_eq_none_iff.mp hgl] at hfil
        simp at hfil
      | some w0 => exact ⟨w0, rfl⟩
    have hw0mem : w0 ∈ st.queue.filter (fun t => t.id == task_id) := by
      obtain ⟨hne, heq⟩ := List.mem_getLast?_eq_getLast (Option.mem_def.mpr hw0)
      rw [heq]
      exact List.getLast_mem hne
    have hw0id : w0.id = task_id := by
      simpa using (List.mem_filter.mp hw0mem).2
    refine ⟨applyUpdate w0 s kw now, ?_, ?_, ?_, ?_⟩
    · simp [update_task_status, hs, hw0]
    · rw [applyUpdate_id]
      exact hw0id
    · rw [applyUpdate_status, hs]
    · exact applyUpdate_completed_at_of _ _ _ _ hs
  · intro hs hnone
    have hfil : st.queue.filter (fun t => t.id == task_id) = [] :=
      List.filter_eq_nil_iff.mpr (fun a ha => by simpa using hnone a ha)
    simp [update_task_status, hs, hfil]

/-- Witness for the amended C5: completing the sample task stamps
`completed_at` and archives exactly one record. -/
theorem C5_update_status_stamps_witness :
    ∃ w, (update_task_status sampleStore
        (mkSample "pending" 3 11).id "completed" {} 12).1.completed =
        sampleStore.completed ++ [w] ∧
      w.id = (mkSample "pending" 3 11).id ∧ w.status = "completed" ∧
      w.completed_at = some 12 :=
  (C5_update_status_stamps sampleStore
      (mkSample "pending" 3 11).id "completed" {} 12).2.2.2.2.2.1
    rfl (by decide)

/-- Helper for C6: replaying the queue file fails exactly when some line
fails to parse. -/
theorem readTasks_error_iff (raw : List (Option Task)) :
    (∃ e, readTasks raw = .error e) ↔ none ∈ raw := by
  induction raw with
  | nil => simp [readTasks]
  | cons hd tl ih =>
    cases hd with
    | none => simp [readTasks]
    | some t =>
      simp only [readTasks, List.mem_cons]
      cases h : readTasks tl with
      | ok ts =>
        rw [h] at ih
        simp only [h]
        simp at ih ⊢
        exact ih
      | error e =>
        rw [h] at ih
        simp only [h]
        constructor
        · intro _
          exact Or.inr (ih.mp ⟨e, rfl⟩)
        · intro _
          exact ⟨e, rfl⟩

/-- C6 counterexample: a store whose second line is malformed makes both
readers raise; in particular `get_all_tasks` does not skip the bad record
and return the good one. -/
theorem C6_one_bad_record_kills_read :
    get_all_tasks_file [some (mkSample "pending" 3 5), none] none none =
      .error "json decode error" ∧
    get_next_task_file [some (mkSample "pending" 3 5), none] =
      .error "json decode error" ∧
    get_all_tasks_file [some (mkSample "pending" 3 5), none] none none ≠
      .ok [mkSample "pending" 3 5] := by
  refine ⟨rfl, rfl, ?_⟩
  simp [get_all_tasks_file, readTasks]

/-- C6 (amended): a persisted record that fails to parse is not skipped: both
read operations (`list` and the scheduler's next-task selection) abort with
the parse error exactly when some record is malformed, losing the whole
queue; they succeed only when every record parses. -/
theorem C6_parse_failure_aborts_reads (raw : List (Option Task))
    (status : Option String) (limit : Option Nat) :
    ((∃ e, get_all_tasks_file raw status limit = .error e) ↔ none ∈ raw) ∧
    ((∃ e, get_next_task_file raw = .error e) ↔ none ∈ raw) := by
  constructor
  · rw [← readTasks_error_iff raw]
    unfold get_all_tasks_file
    cases h : readTasks raw <;> simp [h]
  · rw [← readTasks_error_iff raw]
    unfold get_next_task_file
    cases h : readTasks raw <;> simp [h]

/-- Witness for the amended C6 at the concrete corrupted store. -/
theorem C6_parse_failure_aborts_reads_witness :
    ∃ e, get_all_tasks_file [some (mkSample "pending" 3 5), none] none none =
      .error e :=
  (C6_parse_failure_aborts_reads [some (mkSample "pending" 3 5), none]
      none none).1.mpr (by simp)

/-- C7 counterexample: starting from the empty store, `add` followed by a
direct `updateStatus` to `completed` (the web dashboard's endpoint allows
exactly this) yields a completed task although no state of the trace ever
held it `in_progress`. -/
theorem C7_completed_without_in_progress :
    holdsStatus
      (runOps [Op.add "A" 3 [] "" 4, Op.update (mkId 4) "completed" {} 20])
      (mkId 4) "completed" ∧
    ∀ st ∈ traceOps [Op.add "A" 3 [] "" 4, Op.update (mkId 4) "completed" {} 20],
      ¬ holdsStatus st (mkId 4) "in_progress" := by
  decide

/-- C7 (amended): the store operations themselves enforce no state machine —
`update_task_status` installs whatever status it is given, so a task can
reach `completed` or `failed` without ever holding `in_progress`.  The
autonomous loop's own dispatches, however, do pass through an intermediate
store in which the dispatched task is `in_progress` before the terminal
status is written. -/
theorem C7_loop_passes_through_in_progress (st : StoreState) (task : Task)
    (out : AwaitOutcome) (t1 t2 : Nat) :
    ∃ mid term kw2,
      (∀ u ∈ mid.queue, u.id = task.id → u.status = "in_progress") ∧
      (term = "completed" ∨ term = "failed") ∧
      loop_body st task out t1 t2 = (update_task_status mid task.id term kw2 t2).1 := by
  refine ⟨(update_task_status st task.id "in_progress"
    { started_at := some t1 } t1).1, ?_⟩
  cases out with
  | value r =>
    by_cases hr : r.success = true
    · exact ⟨"completed",
        { completed_at := some t2, execution_result := some r,
          actions_executed := some (r.actions_executed.getD 0) },
        update_status_sets_status _ _ _ _ _, Or.inl rfl,
        by simp [loop_body, hr]⟩
    · exact ⟨"failed",
        { error := some (r.error.getD "Unknown error"), failed_at := some t2 },
        update_status_sets_status _ _ _ _ _, Or.inr rfl,
        by simp [loop_body, hr]⟩
  | raised e =>
    exact ⟨"failed",
      { error := some ("SDK execution error: " ++ e), failed_at := some t2 },
      update_status_sets_status _ _ _ _ _, Or.inr rfl,
      by simp [loop_body]⟩

/-- Witness for the amended C7 at a concrete dispatch. -/
theorem C7_loop_passes_through_in_progress_witness :
    ∃ mid term kw2,
      (∀ u ∈ mid.queue, u.id = backupTask.id → u.status = "in_progress") ∧
      (term = "completed" ∨ term = "failed") ∧
      loop_body backupStore backupTask (.raised "boom") 60 70 =
        (update_task_status mid backupTask.id term kw2 70).1 :=
  C7_loop_passes_through_in_progress backupStore backupTask (.raised "boom") 60 70

/-- C8 counterexample: two `add` calls in the same millisecond (clock value
5) produce two distinct records carrying the same id, so ids are not unique
across the store. -/
theorem C8_same_millisecond_ids_collide :
    ∃ t1 ∈ (runOps [Op.add "A" 3 [] "" 5, Op.add "B" 3 [] "" 5]).queue,
    ∃ t2 ∈ (runOps [Op.add "A" 3 [] "" 5, Op.add "B" 3 [] "" 5]).queue,
      t1 ≠ t2 ∧ t1.id = t2.id := by
  decide

/-- C8 (amended): the id is derived solely from the creation millisecond, so
two `add` calls receive distinct ids exactly when their creation
milliseconds differ; calls within the same millisecond collide. -/
theorem C8_distinct_ms_distinct_ids (q1 q2 : List Task) (a1 a2 d1 d2 : String)
    (p1 p2 : Int) (g1 g2 : List String) (n m : Nat) (h : n ≠ m) :
    (add_task q1 a1 p1 g1 d1 n).2 ≠ (add_task q2 a2 p2 g2 d2 m).2 := by
  intro heq
  simp only [add_task] at heq
  exact h (mkId_inj n m heq)

/-- Witness for the amended C8: adds at milliseconds 1 and 2 get distinct ids. -/
theorem C8_distinct_ms_distinct_ids_witness :
    (add_task [] "A" 3 [] "" 1).2 ≠ (add_task [] "B" 3 [] "" 2).2 :=
  C8_distinct_ms_distinct_ids [] [] "A" "B" "" "" 3 3 [] [] 1 2 (by decide)

/-- C9: `add_task` always appends a record that carries the returned id,
status `pending`, `attempts = 0`, and the priority clamped into `[1, 5]`
(values above 5 become 5, values below 1 become 1). -/
theorem C9_add_then_get (queue : List Task) (task : String) (p : Int)
    (tags : List String) (d : String) (now : Nat) :
    ∃ t ∈ (add_task queue task p tags d now).1,
      t.id = (add_task queue task p tags d now).2 ∧
      t.status = "pending" ∧ t.attempts = 0 ∧
      t.priority = max 1 (min 5 p) ∧
      1 ≤ t.priority ∧ t.priority ≤ 5 ∧
      (5 < p → t.priority = 5) ∧ (p < 1 → t.priority = 1) := by
  simp only [add_task]
  refine ⟨_, List.mem_append_right queue (List.mem_singleton_self _),
    rfl, rfl, rfl, rfl, ?_, ?_, ?_, ?_⟩
  · exact le_max_left 1 (min 5 p)
  · exact max_le (by norm_num) (min_le_left 5 p)
  · intro h
    rw [min_eq_left (le_of_lt h)]
    norm_num
  · intro h
    rw [min_eq_right (by omega : p ≤ 5)]
    exact max_eq_left (le_of_lt h)

/-- Witness for C9: a priority of 7 is clamped to 5 on the appended record. -/
theorem C9_add_then_get_witness :
    ∃ t ∈ (add_task [] "W" 7 [] "" 3).1,
      t.id = (add_task [] "W" 7 [] "" 3).2 ∧
      t.status = "pending" ∧ t.attempts = 0 ∧
      t.priority = max 1 (min 5 7) ∧
      1 ≤ t.priority ∧ t.priority ≤ 5 ∧
      ((5:Int) < 7 → t.priority = 5) ∧ ((7:Int) < 1 → t.priority = 1) :=
  C9_add_then_get [] "W" 7 [] "" 3

/-- C10 counterexample: with `limit = 0` the result is not truncated to
length 0 — Python's `if limit:` treats 0 as "no limit" and the full list
comes back. -/
theorem C10_limit_zero_not_truncating :
    get_all_tasks [mkSample "pending" 3 4] none (some 0) =
      [mkSample "pending" 3 4] ∧
    (get_all_tasks [mkSample "pending" 3 4] none (some 0)).length ≠ 0 := by
  constructor
  · simp [get_all_tasks, statusKeep, List.mergeSort]
  · simp [get_all_tasks, statusKeep, List.mergeSort]

/-- C10 (amended): `get_all_tasks` returns the records matching the status
filter, ordered newest-`created_at`-first, truncated to the limit when a
nonzero limit is supplied; a limit of 0 behaves like no limit and the whole
filtered list is returned.  The operation is a pure function of the queue. -/
theorem C10_list_filter_sort_limit (queue : List Task) (status : Option String)
    (limit : Option Nat) :
    ∃ full : List Task,
      full.Perm (queue.filter (statusKeep status)) ∧
      full.Pairwise (fun a b => b.created_at ≤ a.created_at) ∧
      (limit = none → get_all_tasks queue status limit = full) ∧
      (∀ n, limit = some n → n = 0 → get_all_tasks queue status limit = full) ∧
      (∀ n, limit = some n → n ≠ 0 →
        get_all_tasks queue status limit = full.take n) := by
  refine ⟨(queue.filter (statusKeep status)).mergeSort newestLe,
    List.mergeSort_perm _ _, ?_, ?_, ?_, ?_⟩
  · have hs := @List.sorted_mergeSort Task newestLe newestLe_trans
      newestLe_total (queue.filter (statusKeep status))
    exact hs.imp (fun h => by simpa [newestLe] using h)
  · intro h
    subst h
    rfl
  · intro n h hn
    subst h
    simp [get_all_tasks, hn]
  · intro n h hn
    subst h
    simp [get_all_tasks, hn]

/-- Witness for the amended C10 at a concrete store and limit 0. -/
theorem C10_list_filter_sort_limit_witness :
    ∃ full : List Task,
      full.Perm ([mkSample "pending" 3 4].filter (statusKeep none)) ∧
      full.Pairwise (fun a b => b.created_at ≤ a.created_at) ∧
      ((some 0 : Option Nat) = none →
        get_all_tasks [mkSample "pending" 3 4] none (some 0) = full) ∧
      (∀ n, (some 0 : Option Nat) = some n → n = 0 →
        get_all_tasks [mkSample "pending" 3 4] none (some 0) = full) ∧
      (∀ n, (some 0 : Option Nat) = some n → n ≠ 0 →
        get_all_tasks [mkSample "pending" 3 4] none (some 0) = full.take n) :=
  C10_list_filter_sort_limit [mkSample "pending" 3 4] none (some 0)

end ClaudeTasker
